import Mathlib

/-!
Shallow embedding of `src/template/src/validators.rs` (the most complete
revision of the validator module, which the spec declares canonical) from
`ssokolow/rust-cli-boilerplate`, together with proofs of the spec's
testable properties.

Modelling conventions:
* an `OsStr`/`Path` is its raw byte sequence, modelled as `List Nat`
  (each element a byte value < 256); the embedding models the unix build
  of the crate (the configuration its test-suite exercises), where the
  native separator is `/` = byte 47;
* `Result<(), OsString>` becomes the `Verdict` sum type below; each
  distinct rejection site of the source is one `Reason` constructor
  (the source formats human-readable strings; the interpolated data is
  irrelevant to which rule fired, which is what the properties discuss);
* fallible text decoding (`OsStr::to_str`) is an explicit UTF-8 decoder
  returning `Option (List Nat)` of Unicode scalar values.
-/

set_option maxRecDepth 100000

namespace Validators

/-- Reason carried by a rejection.  Each constructor corresponds to one
`Err(...)` site in `src/template/src/validators.rs`, in source order:
* `nameTooLong`        = "File/folder name is too long ({} chars): {}"
* `nonUtf8Name`        = "File/folder names containing non-UTF8 characters aren't portable"
* `emptyName`          = "File/folder name is empty"
* `trailingSpacePeriod`= "Windows forbids path components ending with spaces/periods"
* `invalidChars`       = "Path component contains invalid characters: {}"
* `reservedName`       = "Filename is reserved on Windows: {:?}"
* `pathEmpty`          = "Path is empty"
* `pathTooLong`        = "Path is too long ({} chars): {:?}"
* `notAFile`           = "{}: Input path must be a file, not a directory"
* `openFailed msg`     = "{}: {}" with the underlying I/O error text `msg` -/
inductive Reason where
  | nameTooLong
  | nonUtf8Name
  | emptyName
  | trailingSpacePeriod
  | invalidChars
  | reservedName
  | pathEmpty
  | pathTooLong
  | notAFile
  | openFailed (msg : List Nat)
  deriving DecidableEq, Repr

/-- Embedding of `Result<(), OsString>`: `accepted` = `Ok(())`,
`rejected r` = `Err(reason text)`. -/
inductive Verdict where
  | accepted
  | rejected (r : Reason)
  deriving DecidableEq, Repr

/-- Byte list of an ASCII string literal (every reserved DOS name and every
test vector used below is pure ASCII, so `Char.toNat` is the byte value). -/
def ascii (s : String) : List Nat :=
  s.data.map (fun c => c.toNat)

/-- Embedding of the `RESERVED_DOS_FILENAMES` constant, as byte lists. -/
def RESERVED_DOS_FILENAMES : List (List Nat) :=
  [ascii "AUX", ascii "CON", ascii "NUL", ascii "PRN",
   ascii "COM1", ascii "COM2", ascii "COM3", ascii "COM4", ascii "COM5",
   ascii "COM6", ascii "COM7", ascii "COM8", ascii "COM9",
   ascii "LPT1", ascii "LPT2", ascii "LPT3", ascii "LPT4", ascii "LPT5",
   ascii "LPT6", ascii "LPT7", ascii "LPT8", ascii "LPT9",
   ascii "CLOCK$", ascii "$IDLE$", ascii "CONFIG$", ascii "KEYBD$",
   ascii "LST", ascii "SCREEN$"]

/-- Continuation byte test for UTF-8 (0x80..=0xBF). -/
def isUtf8Cont (b : Nat) : Bool :=
  decide (0x80 ≤ b ∧ b ≤ 0xBF)

/-- Admissible second byte of a three-byte UTF-8 sequence whose first byte
is `b` (per the table in `core::str::validations`, which excludes overlong
encodings and surrogates). -/
def utf8Second3 (b b1 : Nat) : Bool :=
  if b = 0xE0 then decide (0xA0 ≤ b1 ∧ b1 ≤ 0xBF)
  else if b = 0xED then decide (0x80 ≤ b1 ∧ b1 ≤ 0x9F)
  else isUtf8Cont b1

/-- Admissible second byte of a four-byte UTF-8 sequence whose first byte
is `b` (excludes overlong encodings and scalar values above 0x10FFFF). -/
def utf8Second4 (b b1 : Nat) : Bool :=
  if b = 0xF0 then decide (0x90 ≤ b1 ∧ b1 ≤ 0xBF)
  else if b = 0xF4 then decide (0x80 ≤ b1 ∧ b1 ≤ 0x8F)
  else isUtf8Cont b1

/-- Decoding of one UTF-8 scalar from leading byte `b` followed by `rest`,
per the first-byte dispatch table of `core::str::validations`: returns the
scalar value and the bytes remaining after the encoded sequence, or `none`
when the bytes do not start with a well-formed sequence (lone continuation
byte, overlong form, surrogate, value above 0x10FFFF, truncation). -/
def utf8Step (b : Nat) (rest : List Nat) : Option (Nat × List Nat) :=
  if b ≤ 0x7F then
    some (b, rest)
  else if 0xC2 ≤ b ∧ b ≤ 0xDF then
    match rest with
    | b1 :: rest1 =>
      if isUtf8Cont b1 then some ((b - 0xC0) * 64 + (b1 - 0x80), rest1) else none
    | [] => none
  else if 0xE0 ≤ b ∧ b ≤ 0xEF then
    match rest with
    | b1 :: b2 :: rest2 =>
      if utf8Second3 b b1 && isUtf8Cont b2 then
        some ((b - 0xE0) * 4096 + (b1 - 0x80) * 64 + (b2 - 0x80), rest2)
      else none
    | _ => none
  else if 0xF0 ≤ b ∧ b ≤ 0xF4 then
    match rest with
    | b1 :: b2 :: b3 :: rest3 =>
      if utf8Second4 b b1 && isUtf8Cont b2 && isUtf8Cont b3 then
        some ((b - 0xF0) * 262144 + (b1 - 0x80) * 4096 + (b2 - 0x80) * 64 + (b3 - 0x80), rest3)
      else none
    | _ => none
  else none

/-- Worker for `utf8Decode`: one `utf8Step` per scalar.  `fuel` only bounds
the recursion depth for Lean's sake; every `utf8Step` consumes the leading
byte, so starting `fuel` at the byte count (as `utf8Decode` does) keeps the
fuel-exhaustion branch unreachable. -/
def utf8DecodeGo : Nat → List Nat → Option (List Nat)
  | _, [] => some []
  | 0, _ :: _ => none
  | fuel + 1, b :: rest =>
    match utf8Step b rest with
    | some (c, rest') => (utf8DecodeGo fuel rest').map (fun cs => c :: cs)
    | none => none

/-- Embedding of `OsStr::to_str` / `str::from_utf8` validation: strict
UTF-8 decoding of a byte list into Unicode scalar values, `none` when the
bytes are not valid UTF-8. -/
def utf8Decode (bs : List Nat) : Option (List Nat) :=
  utf8DecodeGo bs.length bs

/-- Splits a byte list at every `/` (byte 47), keeping empty pieces, like
splitting an os-str on the separator before `Path::components` drops the
empties. -/
def splitOnSlash : List Nat → List (List Nat)
  | [] => [[]]
  | b :: rest =>
    if b = 47 then
      [] :: splitOnSlash rest
    else
      match splitOnSlash rest with
      | [] => [[b]]
      | g :: gs => (b :: g) :: gs

/-- Embedding of `std::path::Component` for the unix build (the `Prefix`
variant is Windows-only and cannot arise). -/
inductive PathComponent where
  | rootDir
  | curDir
  | parentDir
  | normal (name : List Nat)
  deriving DecidableEq, Repr

/-- Classification of one non-empty piece between separators, following
`std::path`: `..` is `ParentDir`, `.` is `CurDir`, anything else `Normal`. -/
def classifyPiece (p : List Nat) : PathComponent :=
  if p = [46] then PathComponent.curDir
  else if p = [46, 46] then PathComponent.parentDir
  else PathComponent.normal p

/-- Embedding of `Path::components()` for the unix build: a leading `/`
yields `RootDir` (repeated leading separators collapse into it), empty
pieces from repeated separators are dropped, `.` pieces are dropped except
as the leading component of a relative path, `..` is `ParentDir`. -/
def pathComponents (bs : List Nat) : List PathComponent :=
  let pieces := (splitOnSlash bs).filter (fun p => p ≠ [])
  let body := (pieces.filter (fun p => p ≠ [46])).map classifyPiece
  if bs.head? = some 47 then
    PathComponent.rootDir :: body
  else
    match pieces.head? with
    | some p => if p = [46] then PathComponent.curDir :: body else body
    | none => body

/-- Embedding of `Path::file_name`: the last component when it is a
`Normal` component, `none` otherwise (empty path, root, or trailing `..`). -/
def fileName (bs : List Nat) : Option (List Nat) :=
  match (pathComponents bs).getLast? with
  | some (PathComponent.normal n) => some n
  | _ => none

/-- Stem part of `std::path`'s `split_file_at_dot` applied to a file name:
`..` is its own stem; otherwise cut at the last `.` (byte 46), except that
a `.` in leading position does not start an extension (a lone leading dot
keeps the whole name as the stem). -/
def stemOfFileName (name : List Nat) : List Nat :=
  if name = [46, 46] then name
  else if name.contains 46 then
    let before := ((name.reverse.dropWhile (fun b => b ≠ 46)).tail).reverse
    if before = [] then name else before
  else name

/-- Embedding of `Path::file_stem`. -/
def fileStem (bs : List Nat) : Option (List Nat) :=
  (fileName bs).map stemOfFileName

/-- Full Unicode uppercase of one scalar value as performed by Rust's
`char::to_uppercase` (UnicodeData simple mappings plus the unconditional
full mappings of SpecialCasing), given exactly on every scalar whose
uppercase is pure ASCII: the letters a-z, and the ten non-ASCII scalars
with an all-ASCII uppercase — ß (U+00DF, to SS), dotless ı (U+0131, to I),
long ſ (U+017F, to S) and the Latin ligatures U+FB00-U+FB06 (to FF, FI,
FL, FFI, FFL, ST, ST).  Every remaining scalar is mapped to itself: for
the remaining ASCII scalars the identity is their uppercase, and per the
Unicode tables the uppercase of every remaining non-ASCII scalar contains
at least one non-ASCII scalar, so against the pure-ASCII reserved names
both the true mapping and the identity fail the comparison alike. -/
def charToUppercase (c : Nat) : List Nat :=
  if 97 ≤ c ∧ c ≤ 122 then [c - 32]
  else if c = 0xDF then [83, 83]
  else if c = 0x131 then [73]
  else if c = 0x17F then [83]
  else if c = 0xFB00 then [70, 70]
  else if c = 0xFB01 then [70, 73]
  else if c = 0xFB02 then [70, 76]
  else if c = 0xFB03 then [70, 70, 73]
  else if c = 0xFB04 then [70, 70, 76]
  else if c = 0xFB05 then [83, 84]
  else if c = 0xFB06 then [83, 84]
  else [c]

/-- Embedding of `str::to_uppercase`: uppercase each scalar of the decoded
string and concatenate (one scalar may uppercase to several, as ß to SS). -/
def strToUppercase (cs : List Nat) : List Nat :=
  (cs.map charToUppercase).flatten

/-- Embedding of the reserved-name test
`RESERVED_DOS_FILENAMES.iter().any(|&x| x == stem)` applied to
`file_stem.to_string_lossy().to_uppercase()` (the reserved names being
ASCII, they equal their scalar sequences).  When the stem bytes are valid
UTF-8, `to_string_lossy` is the exact decoding — always the case on the
reachable path, since `to_str` already succeeded on the whole component
and a stem is cut at ASCII dot boundaries.  When they are not, the lossy
string contains U+FFFD, whose uppercase is itself, so the comparison with
the pure-ASCII reserved names fails; that case returns `false` directly. -/
def isReservedStem (stem : List Nat) : Bool :=
  match utf8Decode stem with
  | some cs => decide (strToUppercase cs ∈ RESERVED_DOS_FILENAMES)
  | none => false

/-- Byte classes rejected by the character scan of
`filename_valid_portable` (the `match` over `lossy_str.as_bytes()`), in
source order: NUL, the control range 0x01..=0x1F and 0x7F, the FAT/NTFS
punctuation `" * < > ? |`, the POSIX separator `/`, the HFS/drive
separator `:`, and the DOS separator `\`. -/
def isInvalidFilenameByte (b : Nat) : Bool :=
  decide (b = 0 ∨ (1 ≤ b ∧ b ≤ 0x1F) ∨ b = 0x7F ∨
    b = 34 ∨ b = 42 ∨ b = 60 ∨ b = 62 ∨ b = 63 ∨ b = 124 ∨
    b = 47 ∨ b = 58 ∨ b = 92)

/-- Embedding of `filename_valid_portable` from
`src/template/src/validators.rs` (lines 203-267), check for check in
source order: byte-length ceiling 255, UTF-8 decodability, emptiness (via
`chars().last()`), trailing space/period, the invalid-byte scan, and the
reserved-DOS-stem comparison on the uppercased `Path::file_stem`. -/
def filename_valid_portable (bs : List Nat) : Verdict :=
  if bs.length > 255 then
    Verdict.rejected Reason.nameTooLong
  else
    match utf8Decode bs with
    | none => Verdict.rejected Reason.nonUtf8Name
    | some chars =>
      match chars.getLast? with
      | none => Verdict.rejected Reason.emptyName
      | some lastChar =>
        if lastChar = 32 ∨ lastChar = 46 then
          Verdict.rejected Reason.trailingSpacePeriod
        else if bs.any isInvalidFilenameByte then
          Verdict.rejected Reason.invalidChars
        else
          match fileStem bs with
          | some stem =>
            if isReservedStem stem then
              Verdict.rejected Reason.reservedName
            else
              Verdict.accepted
          | none => Verdict.accepted

/-- Name carried by a `Normal` component (the `if let Component::Normal`
test of the validation loop). -/
def normalName (c : PathComponent) : Option (List Nat) :=
  match c with
  | PathComponent.normal n => some n
  | _ => none

/-- Normal components of a path, in order: the arguments on which the
`for component in path.components()` loop of `path_valid_portable` calls
`filename_valid_portable` (root, `.` and `..` components are skipped). -/
def normalComponents (bs : List Nat) : List (List Nat) :=
  (pathComponents bs).filterMap normalName

/-- Short-circuiting validation loop of `path_valid_portable`: the `?`
operator returns the first component-level rejection as the path verdict. -/
def validateComponents : List (List Nat) → Verdict
  | [] => Verdict.accepted
  | c :: rest =>
    match filename_valid_portable c with
    | Verdict.accepted => validateComponents rest
    | Verdict.rejected r => Verdict.rejected r

/-- Embedding of `path_valid_portable` from
`src/template/src/validators.rs` (lines 145-163): empty-path rejection,
the 32760-byte ceiling, then per-component delegation. -/
def path_valid_portable (bs : List Nat) : Verdict :=
  if bs = [] then
    Verdict.rejected Reason.pathEmpty
  else if bs.length > 32760 then
    Verdict.rejected Reason.pathTooLong
  else
    validateComponents (normalComponents bs)

/-- Abstract file-system environment consumed by the readability probe:
`is_dir` models `Path::is_dir` and `openRead` models `File::open(..)` for
reading, returning either success or the OS error text.  The probe is the
only repository code that touches the real file system; everything it
observes is channelled through these two fields. -/
structure FileSystem where
  is_dir : List Nat → Bool
  openRead : List Nat → Except (List Nat) Unit

/-- Embedding of `path_readable_file` from
`src/template/src/validators.rs` (lines 83-93): reject a directory, then
attempt to open for reading and map an I/O failure to a rejection carrying
the OS error text. -/
def path_readable_file (fs : FileSystem) (bs : List Nat) : Verdict :=
  if fs.is_dir bs then
    Verdict.rejected Reason.notAFile
  else
    match fs.openRead bs with
    | Except.ok _ => Verdict.accepted
    | Except.error e => Verdict.rejected (Reason.openFailed e)

end Validators

namespace Validators

/-- Decoding success on a non-empty byte list yields a non-empty scalar list. -/
theorem utf8Decode_cons_ne_nil {b : Nat} {t cs : List Nat}
    (h : utf8Decode (b :: t) = some cs) : cs ≠ [] := by
  simp only [utf8Decode, List.length_cons, utf8DecodeGo] at h
  split at h
  · rcases Option.map_eq_some'.1 h with ⟨a, -, rfl⟩
    simp
  · exact absurd h (by simp)

/-- A byte below 0x80 always decodes as itself in one step. -/
theorem utf8Step_ascii {b : Nat} (rest : List Nat) (hb : b ≤ 127) :
    utf8Step b rest = some (b, rest) := by
  unfold utf8Step
  rw [if_pos hb]

/-- Worker-level version of `utf8Decode_ascii`. -/
theorem utf8DecodeGo_ascii : ∀ (bs : List Nat), (∀ b ∈ bs, b ≤ 127) →
    utf8DecodeGo bs.length bs = some bs
  | [], _ => rfl
  | b :: t, h => by
    have hb : b ≤ 127 := h b (List.mem_cons_self _ _)
    have ht := utf8DecodeGo_ascii t (fun x hx => h x (List.mem_cons_of_mem _ hx))
    simp only [List.length_cons, utf8DecodeGo, utf8Step_ascii t hb, ht, Option.map_some']

/-- Decoding is the identity on ASCII byte lists. -/
theorem utf8Decode_ascii (bs : List Nat) (h : ∀ b ∈ bs, b ≤ 127) :
    utf8Decode bs = some bs :=
  utf8DecodeGo_ascii bs h

/-- Inversion principle: everything that must have held of a component for
`filename_valid_portable` to have accepted it. -/
theorem filename_accepted_inversion {bs : List Nat}
    (h : filename_valid_portable bs = Verdict.accepted) :
    bs.length ≤ 255 ∧
    (∃ cs, utf8Decode bs = some cs ∧ cs ≠ [] ∧
      (∀ l, cs.getLast? = some l → l ≠ 32 ∧ l ≠ 46)) ∧
    bs.any isInvalidFilenameByte = false ∧
    (∀ stem, fileStem bs = some stem → isReservedStem stem = false) := by
  unfold filename_valid_portable at h
  split at h
  · exact absurd h (by simp)
  next hlen =>
  split at h
  · exact absurd h (by simp)
  next cs hdec =>
  split at h
  · exact absurd h (by simp)
  next lastChar hlast =>
  split at h
  · exact absurd h (by simp)
  next hl =>
  split at h
  · exact absurd h (by simp)
  next hany =>
  refine ⟨by omega, ⟨cs, hdec, ?_, ?_⟩, by simpa using hany, ?_⟩
  · intro hnil
    rw [hnil] at hlast
    exact absurd hlast (by simp)
  · intro l hli
    rw [hlast] at hli
    injection hli with e
    subst e
    push_neg at hl
    exact hl
  · split at h
    next stem hstem =>
      split at h
      · exact absurd h (by simp)
      next hres =>
        intro stem' hstem'
        rw [hstem] at hstem'
        injection hstem' with e
        subst e
        simpa using hres
    next hnone =>
      intro stem' hstem'
      rw [hnone] at hstem'
      exact absurd hstem' (by simp)

end Validators

namespace Validators

/-- Construction principle: a component within the length ceiling that
decodes as text, is non-empty, ends in neither space nor period, contains
no forbidden byte, and whose stem is not reserved, is accepted. -/
theorem filename_accepted_construction (bs cs : List Nat)
    (hlen : bs.length ≤ 255)
    (htext : utf8Decode bs = some cs)
    (hne : cs ≠ [])
    (hlast : cs.getLast? ≠ some 32 ∧ cs.getLast? ≠ some 46)
    (hany : bs.any isInvalidFilenameByte = false)
    (hstem : ∀ stem, fileStem bs = some stem → isReservedStem stem = false) :
    filename_valid_portable bs = Verdict.accepted := by
  unfold filename_valid_portable
  rw [if_neg (by omega)]
  split
  next heq =>
    rw [htext] at heq
    exact absurd heq (by simp)
  next chars heq =>
    rw [htext] at heq
    injection heq with e
    subst e
    split
    next hnone =>
      exact absurd (List.getLast?_eq_none_iff.1 hnone) hne
    next l hl =>
      have hcond : ¬(l = 32 ∨ l = 46) := by
        rintro (rfl | rfl)
        · exact hlast.1 hl
        · exact hlast.2 hl
      rw [if_neg hcond]
      have hany' : ¬(bs.any isInvalidFilenameByte = true) := by
        rw [hany]
        exact Bool.false_ne_true
      rw [if_neg hany']
      split
      next stem hfs => rw [if_neg (by simp [hstem stem hfs])]
      next => rfl

/-- The component loop accepts exactly when every component does. -/
theorem validateComponents_eq_accepted_iff (l : List (List Nat)) :
    validateComponents l = Verdict.accepted ↔
      ∀ c ∈ l, filename_valid_portable c = Verdict.accepted := by
  induction l with
  | nil => simp [validateComponents]
  | cons c rest ih =>
    simp only [validateComponents]
    cases h : filename_valid_portable c with
    | accepted => simp [h, ih]
    | rejected r =>
      constructor
      · intro h'
        exact absurd h' (by simp)
      · intro h'
        have hc := h' c (List.mem_cons_self _ _)
        rw [h] at hc
        exact absurd hc (by simp)

end Validators

namespace Validators

/-- Splitting a separator-free byte list yields that list as one piece. -/
theorem splitOnSlash_no_slash : ∀ (c : List Nat), (47 : Nat) ∉ c →
    splitOnSlash c = [c]
  | [], _ => rfl
  | b :: t, h => by
    have hb : b ≠ 47 := fun e => h (by rw [e] at *; exact List.mem_cons_self _ _)
    have ht : (47 : Nat) ∉ t := fun m => h (List.mem_cons_of_mem _ m)
    simp [splitOnSlash, hb, splitOnSlash_no_slash t ht]

/-- Splitting peels off one separator-free piece before a separator. -/
theorem splitOnSlash_slash_append : ∀ (c rest : List Nat), (47 : Nat) ∉ c →
    splitOnSlash (c ++ 47 :: rest) = c :: splitOnSlash rest
  | [], rest, _ => by simp [splitOnSlash]
  | b :: t, rest, h => by
    have hb : b ≠ 47 := fun e => h (by rw [e] at *; exact List.mem_cons_self _ _)
    have ht : (47 : Nat) ∉ t := fun m => h (List.mem_cons_of_mem _ m)
    simp [splitOnSlash, hb, splitOnSlash_slash_append t rest ht]

/-- Byte 47 never occurs in a run of letters X. -/
theorem no47_replicate (n : Nat) : (47 : Nat) ∉ List.replicate n 88 := by
  intro h
  have := List.eq_of_mem_replicate h
  omega

/-- Splitting a path made of n maximal-length components, each followed by
a separator, then a separator-free tail. -/
theorem splitOnSlash_blocks (n : Nat) (t : List Nat) (ht : (47 : Nat) ∉ t) :
    splitOnSlash ((List.replicate n (List.replicate 255 88 ++ [47])).flatten ++ t) =
      List.replicate n (List.replicate 255 88) ++ [t] := by
  induction n with
  | zero => simp [splitOnSlash_no_slash t ht]
  | succ n ih =>
    have hre : (List.replicate (n + 1) (List.replicate 255 88 ++ [47])).flatten ++ t =
        List.replicate 255 88 ++
          47 :: ((List.replicate n (List.replicate 255 88 ++ [47])).flatten ++ t) := by
      simp [List.replicate_succ, List.flatten_cons, List.append_assoc]
    rw [hre, splitOnSlash_slash_append _ _ (no47_replicate 255), ih]
    simp [List.replicate_succ]

/-- Extracting the names back out of a list of `Normal` components. -/
theorem filterMap_map_normal (l : List (List Nat)) :
    (l.map PathComponent.normal).filterMap normalName = l := by
  induction l with
  | nil => rfl
  | cons a t ih => simp [List.filterMap_cons, normalName, ih]

/-- When a relative path splits into pieces that are all non-empty and none
of them is `.` or `..`, its normal components are exactly those pieces. -/
theorem normalComponents_of_plain (bs : List Nat) (l : List (List Nat))
    (hsplit : splitOnSlash bs = l)
    (hhead : bs.head? ≠ some 47)
    (hl : ∀ p ∈ l, p ≠ [] ∧ p ≠ [46] ∧ p ≠ [46, 46]) :
    normalComponents bs = l := by
  have hfil1 : l.filter (fun p => decide (p ≠ [])) = l :=
    List.filter_eq_self.mpr (fun a ha => by simp [(hl a ha).1])
  have hfil2 : l.filter (fun p => decide (p ≠ [46])) = l :=
    List.filter_eq_self.mpr (fun a ha => by simp [(hl a ha).2.1])
  have hmap : l.map classifyPiece = l.map PathComponent.normal := by
    apply List.map_congr_left
    intro a ha
    simp [classifyPiece, (hl a ha).2.1, (hl a ha).2.2]
  simp only [normalComponents, pathComponents, hsplit, hfil1, hfil2, hmap]
  rw [if_neg hhead]
  split
  next p hh =>
    have hmem : p ∈ l := by
      cases l with
      | nil => exact absurd hh (by simp)
      | cons a t =>
        have hap : a = p := by simpa using hh
        rw [← hap]
        exact List.mem_cons_self _ _
    rw [if_neg (hl p hmem).2.1]
    exact filterMap_map_normal l
  next =>
    exact filterMap_map_normal l

end Validators

namespace Validators

/-- Boundary test path from the source's `path_valid_portable_enforces_length_limits`
test: blocks of 255 letters X, each followed by a separator, truncated to
exactly 32760 bytes (127 full blocks of 256 bytes plus a 248-byte tail). -/
def bigPath : List Nat :=
  (List.replicate 127 (List.replicate 255 88 ++ [47])).flatten ++ List.replicate 248 88

/-- First byte of the boundary path is the letter X. -/
theorem bigPath_head : bigPath.head? = some 88 := rfl

/-- The boundary path is exactly 32760 bytes long. -/
theorem bigPath_length : bigPath.length = 32760 := by
  rw [bigPath, List.length_append, List.length_flatten, List.map_replicate,
      List.length_append, List.length_replicate, List.length_replicate,
      List.sum_replicate, smul_eq_mul]
  norm_num

/-- A 255-byte run of X is an acceptable component. -/
theorem replicate255_accepted :
    filename_valid_portable (List.replicate 255 88) = Verdict.accepted := by
  decide

/-- A 248-byte run of X is an acceptable component. -/
theorem replicate248_accepted :
    filename_valid_portable (List.replicate 248 88) = Verdict.accepted := by
  decide

/-- A 256-byte run of X trips the component length ceiling. -/
theorem replicate256_rejected :
    filename_valid_portable (List.replicate 256 88) = Verdict.rejected Reason.nameTooLong := by
  decide

/-- Components of the boundary path: 127 blocks and the short tail. -/
theorem normalComponents_bigPath :
    normalComponents bigPath =
      List.replicate 127 (List.replicate 255 88) ++ [List.replicate 248 88] := by
  apply normalComponents_of_plain
  · exact splitOnSlash_blocks 127 _ (no47_replicate 248)
  · rw [bigPath_head]
    simp
  · intro p hp
    rcases List.mem_append.1 hp with h | h
    · rw [List.eq_of_mem_replicate h]
      refine ⟨?_, ?_, ?_⟩ <;>
        (intro e; have := congrArg List.length e; simp at this)
    · rw [show p = List.replicate 248 88 by simpa using h]
      refine ⟨?_, ?_, ?_⟩ <;>
        (intro e; have := congrArg List.length e; simp at this)

/-- The 32760-byte boundary path passes the path validator. -/
theorem bigPath_accepted : path_valid_portable bigPath = Verdict.accepted := by
  have hne : bigPath ≠ [] := by
    intro e
    have := congrArg List.length e
    rw [bigPath_length] at this
    simp at this
  have hlen : ¬bigPath.length > 32760 := by
    rw [bigPath_length]
    omega
  unfold path_valid_portable
  rw [if_neg hne, if_neg hlen]
  apply (validateComponents_eq_accepted_iff _).mpr
  rw [normalComponents_bigPath]
  intro c hc
  rcases List.mem_append.1 hc with h | h
  · rw [List.eq_of_mem_replicate h]
    exact replicate255_accepted
  · rw [show c = List.replicate 248 88 by simpa using h]
    exact replicate248_accepted

end Validators

namespace Validators

/-- C1: every path component of byte length 1..255 that decodes as text,
contains no control characters (0x00-0x1F, 0x7F), none of the characters
`" * < > ? | / \ :`, does not end in a space or a period, and whose file
stem is not case-insensitively a reserved device name — that is, whose
stem does not uppercase, under Rust's full Unicode mapping, to an entry of
the reserved set — is accepted by `filename_valid_portable`. -/
theorem c1_portable_components_accepted (bs cs : List Nat)
    (hlen1 : 1 ≤ bs.length) (hlen2 : bs.length ≤ 255)
    (htext : utf8Decode bs = some cs)
    (hctl : ∀ b ∈ bs, 32 ≤ b ∧ b ≠ 127)
    (hpunct : ∀ b ∈ bs, b ≠ 34 ∧ b ≠ 42 ∧ b ≠ 60 ∧ b ≠ 62 ∧ b ≠ 63 ∧
      b ≠ 124 ∧ b ≠ 47 ∧ b ≠ 92 ∧ b ≠ 58)
    (hlast : cs.getLast? ≠ some 32 ∧ cs.getLast? ≠ some 46)
    (hstem : ∀ stem, fileStem bs = some stem → isReservedStem stem = false) :
    filename_valid_portable bs = Verdict.accepted := by
  apply filename_accepted_construction bs cs hlen2 htext
  · cases bs with
    | nil => simp at hlen1
    | cons b t => exact utf8Decode_cons_ne_nil htext
  · exact hlast
  · refine List.any_eq_false.mpr ?_
    intro b hb
    obtain ⟨h32, h127⟩ := hctl b hb
    obtain ⟨p1, p2, p3, p4, p5, p6, p7, p8, p9⟩ := hpunct b hb
    simp only [isInvalidFilenameByte, decide_eq_true_eq]
    omega
  · exact hstem

/-- C1 witness at the component "hello". -/
theorem c1_portable_components_accepted_witness :
    1 ≤ (ascii "hello").length ∧ (ascii "hello").length ≤ 255 ∧
    utf8Decode (ascii "hello") = some (ascii "hello") ∧
    filename_valid_portable (ascii "hello") = Verdict.accepted :=
  ⟨by decide, by decide, by decide,
    c1_portable_components_accepted (ascii "hello") (ascii "hello")
      (by decide) (by decide) (by decide) (by decide) (by decide) (by decide)
      (fun stem hs => by
        have he : fileStem (ascii "hello") = some (ascii "hello") := by decide
        rw [he] at hs
        injection hs with e
        rw [← e]
        decide)⟩

/-- C2 (counterexample): at the empty path every normal component (there
are none) is vacuously accepted, yet `path_valid_portable` rejects it, so
the claimed equivalence fails at the input "". -/
theorem c2_iff_fails_on_empty_path :
    ¬(path_valid_portable [] = Verdict.accepted ↔
      ∀ c ∈ normalComponents [], filename_valid_portable c = Verdict.accepted) := by
  decide

/-- C2 (amended): for every non-empty path of at most 32760 bytes,
`path_valid_portable` accepts exactly when every normal component is
accepted by `filename_valid_portable`; parent-directory and
current-directory pseudo-components are skipped, never validated, and never
cause rejection on their own. -/
theorem c2_path_valid_iff_normal_components (bs : List Nat)
    (hne : bs ≠ []) (hlen : bs.length ≤ 32760) :
    path_valid_portable bs = Verdict.accepted ↔
      ∀ c ∈ normalComponents bs, filename_valid_portable c = Verdict.accepted := by
  unfold path_valid_portable
  rw [if_neg hne, if_neg (by omega)]
  exact validateComponents_eq_accepted_iff _

/-- C2 witness: "foo/.." is accepted — its only normal component "foo" is
valid and the ".." pseudo-component is skipped. -/
theorem c2_path_valid_iff_normal_components_witness :
    ascii "foo/.." ≠ [] ∧ (ascii "foo/..").length ≤ 32760 ∧
    path_valid_portable (ascii "foo/..") = Verdict.accepted :=
  ⟨by decide, by decide,
    (c2_path_valid_iff_normal_components (ascii "foo/..") (by decide)
      (by decide)).mpr (by decide)⟩

/-- C3: any component whose file stem, uppercased per Rust's full Unicode
mapping, equals one of the reserved DOS device names is rejected,
regardless of extension and of letter case. -/
theorem c3_reserved_stems_rejected (bs stem : List Nat)
    (hs : fileStem bs = some stem)
    (hr : isReservedStem stem = true) :
    filename_valid_portable bs ≠ Verdict.accepted := by
  intro h
  have hfalse := (filename_accepted_inversion h).2.2.2 stem hs
  rw [hr] at hfalse
  exact absurd hfalse (by simp)

/-- C3 witness at CON, Con, coN, LPT1, con.txt and lpt1.dat. -/
theorem c3_reserved_stems_rejected_witness :
    filename_valid_portable (ascii "CON") ≠ Verdict.accepted ∧
    filename_valid_portable (ascii "Con") ≠ Verdict.accepted ∧
    filename_valid_portable (ascii "coN") ≠ Verdict.accepted ∧
    filename_valid_portable (ascii "LPT1") ≠ Verdict.accepted ∧
    filename_valid_portable (ascii "con.txt") ≠ Verdict.accepted ∧
    filename_valid_portable (ascii "lpt1.dat") ≠ Verdict.accepted :=
  ⟨c3_reserved_stems_rejected (ascii "CON") (ascii "CON") (by decide) (by decide),
   c3_reserved_stems_rejected (ascii "Con") (ascii "Con") (by decide) (by decide),
   c3_reserved_stems_rejected (ascii "coN") (ascii "coN") (by decide) (by decide),
   c3_reserved_stems_rejected (ascii "LPT1") (ascii "LPT1") (by decide) (by decide),
   c3_reserved_stems_rejected (ascii "con.txt") (ascii "con") (by decide) (by decide),
   c3_reserved_stems_rejected (ascii "lpt1.dat") (ascii "lpt1") (by decide) (by decide)⟩

/-- C4: components longer than 255 bytes are rejected; at the boundary the
255-X component is accepted and the 256-X component is rejected. -/
theorem c4_component_length_limit :
    (∀ bs : List Nat, 255 < bs.length →
      filename_valid_portable bs = Verdict.rejected Reason.nameTooLong) ∧
    filename_valid_portable (List.replicate 255 88) = Verdict.accepted ∧
    filename_valid_portable (List.replicate 256 88) =
      Verdict.rejected Reason.nameTooLong := by
  refine ⟨?_, replicate255_accepted, replicate256_rejected⟩
  intro bs h
  unfold filename_valid_portable
  rw [if_pos h]

/-- C4 witness at the 256-X component. -/
theorem c4_component_length_limit_witness :
    255 < (List.replicate 256 88).length ∧
    filename_valid_portable (List.replicate 256 88) =
      Verdict.rejected Reason.nameTooLong :=
  ⟨by simp, c4_component_length_limit.1 (List.replicate 256 88) (by simp)⟩

/-- C5: the empty path is rejected, every path beyond 32760 bytes is
rejected, and the boundary is exact: the 32760-byte path built from valid
components is accepted while its 32761-byte extension is rejected. -/
theorem c5_path_length_limits :
    path_valid_portable [] = Verdict.rejected Reason.pathEmpty ∧
    (∀ bs : List Nat, 32760 < bs.length →
      path_valid_portable bs = Verdict.rejected Reason.pathTooLong) ∧
    (bigPath.length = 32760 ∧ path_valid_portable bigPath = Verdict.accepted) ∧
    ((bigPath ++ [88]).length = 32761 ∧
      path_valid_portable (bigPath ++ [88]) = Verdict.rejected Reason.pathTooLong) := by
  have huniv : ∀ bs : List Nat, 32760 < bs.length →
      path_valid_portable bs = Verdict.rejected Reason.pathTooLong := by
    intro bs h
    have hne : bs ≠ [] := by
      intro e
      rw [e] at h
      simp at h
    unfold path_valid_portable
    rw [if_neg hne, if_pos h]
  refine ⟨rfl, huniv, ⟨bigPath_length, bigPath_accepted⟩, ?_, ?_⟩
  · rw [List.length_append, bigPath_length, List.length_singleton]
  · exact huniv _
      (by rw [List.length_append, bigPath_length, List.length_singleton]; omega)

/-- C5 witness at the 32761-byte path. -/
theorem c5_path_length_limits_witness :
    32760 < (bigPath ++ [88]).length ∧
    path_valid_portable (bigPath ++ [88]) = Verdict.rejected Reason.pathTooLong :=
  ⟨by rw [List.length_append, bigPath_length, List.length_singleton]; omega,
   c5_path_length_limits.2.1 (bigPath ++ [88])
     (by rw [List.length_append, bigPath_length, List.length_singleton]; omega)⟩

/-- C6: a component whose decoded text ends in a space or a period is
rejected. -/
theorem c6_trailing_space_period_rejected (bs cs : List Nat) (l : Nat)
    (htext : utf8Decode bs = some cs)
    (hlast : cs.getLast? = some l)
    (hl : l = 32 ∨ l = 46) :
    filename_valid_portable bs ≠ Verdict.accepted := by
  intro h
  rcases (filename_accepted_inversion h).2.1 with ⟨cs', hdec', -, hlast'⟩
  rw [htext] at hdec'
  injection hdec' with e
  subst e
  rcases hl with rfl | rfl
  · exact (hlast' _ hlast).1 rfl
  · exact (hlast' _ hlast).2 rfl

/-- C6 witness at "a.". -/
theorem c6_trailing_space_period_rejected_witness :
    utf8Decode (ascii "a.") = some (ascii "a.") ∧
    (ascii "a.").getLast? = some 46 ∧
    filename_valid_portable (ascii "a.") ≠ Verdict.accepted :=
  ⟨by decide, by decide,
   c6_trailing_space_period_rejected (ascii "a.") (ascii "a.") 46
     (by decide) (by decide) (Or.inr rfl)⟩

/-- C7: a component whose bytes are not valid UTF-8 is rejected. -/
theorem c7_non_utf8_rejected (bs : List Nat)
    (h : utf8Decode bs = none) :
    filename_valid_portable bs ≠ Verdict.accepted := by
  intro hacc
  rcases (filename_accepted_inversion hacc).2.1 with ⟨cs, hdec, -, -⟩
  rw [h] at hdec
  exact absurd hdec (by simp)

/-- C7 witness at the lone byte 0xFF. -/
theorem c7_non_utf8_rejected_witness :
    utf8Decode [255] = none ∧
    filename_valid_portable [255] ≠ Verdict.accepted :=
  ⟨by decide, c7_non_utf8_rejected [255] (by decide)⟩

/-- C8 (counterexample): the component [0x00, 0xFF] contains a NUL byte,
yet it is reported as a text-validity (non-UTF-8) rejection: the NUL is
neither rejected before the UTF-8 check nor with a reason of its own, so
the claimed first-and-independent terminator rejection does not hold. -/
theorem c8_nul_not_reported_first :
    (0 : Nat) ∈ [0, 255] ∧
    filename_valid_portable [0, 255] = Verdict.rejected Reason.nonUtf8Name ∧
    Reason.nonUtf8Name ≠ Reason.invalidChars := by
  decide

/-- C8 (amended): every NUL-containing component is rejected, but the NUL
arm is merely the first arm of the character-class scan, which shares the
single invalid-characters reason and runs after the length, text-validity
and trailing-character checks: when those earlier checks pass, the verdict
is the invalid-characters rejection (no dedicated terminator reason
exists), and otherwise the earlier check's reason is reported. -/
theorem c8_nul_always_rejected (bs cs : List Nat) (l : Nat) (h0 : 0 ∈ bs) :
    filename_valid_portable bs ≠ Verdict.accepted ∧
    (bs.length ≤ 255 → utf8Decode bs = some cs → cs.getLast? = some l →
      l ≠ 32 → l ≠ 46 →
      filename_valid_portable bs = Verdict.rejected Reason.invalidChars) := by
  have hany : bs.any isInvalidFilenameByte = true :=
    List.any_eq_true.mpr ⟨0, h0, by decide⟩
  constructor
  · intro h
    have hfalse := (filename_accepted_inversion h).2.2.1
    rw [hany] at hfalse
    exact absurd hfalse (by simp)
  · intro hlen htext hlast h32 h46
    unfold filename_valid_portable
    rw [if_neg (by omega)]
    split
    next heq =>
      rw [htext] at heq
      exact absurd heq (by simp)
    next chars heq =>
      rw [htext] at heq
      injection heq with e
      subst e
      split
      next hnone =>
        rw [hlast] at hnone
        exact absurd hnone (by simp)
      next l' hl' =>
        rw [hlast] at hl'
        injection hl' with e'
        subst e'
        rw [if_neg (fun hc => hc.elim h32 h46), if_pos hany]

/-- C8 witness at "a\x00". -/
theorem c8_nul_always_rejected_witness :
    (0 : Nat) ∈ [97, 0] ∧
    filename_valid_portable [97, 0] ≠ Verdict.accepted ∧
    filename_valid_portable [97, 0] = Verdict.rejected Reason.invalidChars :=
  ⟨by decide,
   (c8_nul_always_rejected [97, 0] [97, 0] 0 (by decide)).1,
   (c8_nul_always_rejected [97, 0] [97, 0] 0 (by decide)).2
     (by decide) (by decide) (by decide) (by decide) (by decide)⟩

/-- C9: over any file-system environment, `path_readable_file` rejects a
directory with the not-a-file message; rejects a non-directory that fails
to open, propagating the underlying I/O error text (which covers
non-existent paths); accepts a non-directory that opens for reading; and
never accepts the empty path provided the OS fails to open "" (POSIX
returns ENOENT for it). -/
theorem c9_path_readable_file_spec (fs : FileSystem) (p e : List Nat) :
    (fs.is_dir p = true →
      path_readable_file fs p = Verdict.rejected Reason.notAFile) ∧
    (fs.is_dir p = false → fs.openRead p = Except.error e →
      path_readable_file fs p = Verdict.rejected (Reason.openFailed e)) ∧
    (fs.is_dir p = false → fs.openRead p = Except.ok () →
      path_readable_file fs p = Verdict.accepted) ∧
    (fs.openRead [] = Except.error e →
      path_readable_file fs [] ≠ Verdict.accepted) := by
  refine ⟨?_, ?_, ?_, ?_⟩
  · intro h
    simp [path_readable_file, h]
  · intro h1 h2
    simp [path_readable_file, h1, h2]
  · intro h1 h2
    simp [path_readable_file, h1, h2]
  · intro h
    cases hd : fs.is_dir [] with
    | true => simp [path_readable_file, hd]
    | false => simp [path_readable_file, hd, h]

/-- Toy file-system environment for exercising the probe: the root "/" is
the only directory, "/f" is the only openable file, everything else fails
to open with an ENOENT-style message. -/
def demoFS : FileSystem where
  is_dir := fun p => p = ascii "/"
  openRead := fun p =>
    if p = ascii "/f" then Except.ok ()
    else Except.error (ascii "No such file or directory (os error 2)")

/-- C9 witness over `demoFS`: directory rejected, file accepted, missing
path rejected with the propagated message, empty path rejected. -/
theorem c9_path_readable_file_spec_witness :
    path_readable_file demoFS (ascii "/") = Verdict.rejected Reason.notAFile ∧
    path_readable_file demoFS (ascii "/f") = Verdict.accepted ∧
    path_readable_file demoFS (ascii "/g") =
      Verdict.rejected (Reason.openFailed (ascii "No such file or directory (os error 2)")) ∧
    path_readable_file demoFS [] ≠ Verdict.accepted :=
  ⟨(c9_path_readable_file_spec demoFS (ascii "/") []).1 (by decide),
   (c9_path_readable_file_spec demoFS (ascii "/f") []).2.2.1 (by decide) (by rfl),
   (c9_path_readable_file_spec demoFS (ascii "/g")
     (ascii "No such file or directory (os error 2)")).2.1 (by decide) (by rfl),
   (c9_path_readable_file_spec demoFS []
     (ascii "No such file or directory (os error 2)")).2.2.2 (by rfl)⟩

/-- C10: the reserved-name check keys on the uppercased `Path::file_stem`,
which keeps a lone leading dot inside the stem and strips at most one final
extension: dotfile forms ".con" and ".CON" and the doubly-extended
"con.tar.gz" (stem "con.tar") are accepted, while "con" and "con.txt"
(stem "con") are rejected. -/
theorem c10_file_stem_edge_cases :
    fileStem (ascii ".con") = some (ascii ".con") ∧
    fileStem (ascii "con.tar.gz") = some (ascii "con.tar") ∧
    filename_valid_portable (ascii ".con") = Verdict.accepted ∧
    filename_valid_portable (ascii ".CON") = Verdict.accepted ∧
    filename_valid_portable (ascii "con.tar.gz") = Verdict.accepted ∧
    filename_valid_portable (ascii "con") = Verdict.rejected Reason.reservedName ∧
    filename_valid_portable (ascii "con.txt") = Verdict.rejected Reason.reservedName := by
  decide

end Validators
